import Mathlib

/-!
Shallow embedding of the transcode job orchestration layer of the
Video-Transcoder repository (class `FFmpegManager`): the task table, the
per-run event handlers (`progress`, `end`, `error`), the caller operations
`pauseTranscode` / `resumeTranscode` / `cancelTranscode`, option validation
(`validateAndFixOptions`, the stream-copy detection) and the hardware
encoder probe (`validateHardwareEncoder`).

External effects are made explicit: the file system is a boolean
"the output file exists" parameter, process kills that may throw are a
boolean `killOk` parameter, the recursive fallback resubmission is an
`Except` parameter, notifications sent to the renderer are collected in a
list, and the probe process outcome is a `ProbeOutcome` value.
-/

set_option maxRecDepth 4096

namespace VideoTranscoder

/-- ASCII-wise lowercasing, modelling JavaScript `toLowerCase` on the
ASCII error signatures used by the manager. -/
def lowerStr (s : String) : String :=
  String.mk (s.toList.map Char.toLower)

/-- `leadsWith pat l` is true when `pat` is an initial segment of `l`. -/
def leadsWith : List Char → List Char → Bool
  | [], _ => true
  | _ :: _, [] => false
  | a :: as, b :: bs => a == b && leadsWith as bs

/-- `containsFrom pat l` is true when `pat` occurs contiguously in `l`. -/
def containsFrom (pat : List Char) : List Char → Bool
  | [] => pat.isEmpty
  | c :: t => leadsWith pat (c :: t) || containsFrom pat t

/-- `strContains s pat`: JavaScript `s.includes(pat)`. -/
def strContains (s pat : String) : Bool :=
  containsFrom pat.toList s.toList

/-- Job states, the string union
`'pending' | 'running' | 'paused' | 'completed' | 'failed' | 'cancelled'`
of the `TranscodeTask.status` field. -/
inductive Status where
  | pending
  | running
  | paused
  | completed
  | failed
  | cancelled
deriving DecidableEq, Repr

/-- The `TranscodeOptions` interface. Optional string fields are `Option
String` (with `some ""` playing the role of a falsy empty string), `fps`
is an optional number. -/
structure TranscodeOptions where
  outputFormat : String
  videoCodec : Option String := none
  audioCodec : Option String := none
  videoBitrate : Option String := none
  audioBitrate : Option String := none
  resolution : Option String := none
  fps : Option Nat := none
  preset : Option String := none
  hardwareAccel : Option String := none
  hwaccelDevice : Option String := none
deriving DecidableEq, Repr

/-- JavaScript truthiness of an optional string field: present and
non-empty. -/
def truthy : Option String → Bool
  | none => false
  | some s => !s.isEmpty

/-- JavaScript truthiness of an optional numeric field: present and
non-zero. -/
def truthyNat : Option Nat → Bool
  | none => false
  | some n => n != 0

/-- The `TranscodeTask` record, restricted to the fields the orchestration
logic reads or writes. `hasCommand` models whether `task.command` is set
(the fluent-ffmpeg command object); timestamps are not modelled. -/
structure TranscodeTask where
  id : String
  inputFile : String
  outputFile : String
  options : TranscodeOptions
  status : Status
  progress : Int
  error : Option String := none
  hasCommand : Bool := false
deriving DecidableEq, Repr

/-- Notifications pushed to the renderer process over the
`ffmpeg:progress` / `ffmpeg:completed` / `ffmpeg:failed` /
`ffmpeg:hardware-fallback` channels. -/
inductive Notification where
  | progress (taskId : String) (percent : Int) (status : Status)
  | completed (taskId : String)
  | failed (taskId : String) (error : String)
  | hardwareFallback (taskId : String) (originalAccel : String) (error : String)
deriving DecidableEq, Repr

/-- Result of a progress/end event handler: the updated task and the
notifications it sent. -/
structure HandlerResult where
  task : TranscodeTask
  notifications : List Notification
deriving DecidableEq, Repr

/-- The `command.on('progress', ...)` handler of `startTranscode` (the
`resumeTranscode` copy is identical): stores `progress.percent || 0`,
forces status `running`, and forwards the same value in an
`ffmpeg:progress` notification. The raw sample's `percent` field is
`Option Int`; a falsy value (missing or `0`) yields `0`. -/
def onProgress (task : TranscodeTask) (taskId : String) (percent : Option Int) :
    HandlerResult :=
  let p := percent.getD 0
  let task := { task with progress := p, status := Status.running }
  ⟨task, [Notification.progress taskId p Status.running]⟩

/-- The `command.on('end', ...)` handler of `startTranscode` (the
`resumeTranscode` copy behaves the same on the task): unconditionally sets
status `completed` and progress `100`, then sends a progress notification
and a completion notification. It does not read the task's current
status. -/
def onEnd (task : TranscodeTask) (taskId : String) : HandlerResult :=
  let task := { task with status := Status.completed, progress := 100 }
  ⟨task, [Notification.progress taskId 100 Status.completed,
          Notification.completed taskId]⟩

/-- The error-signature list of `isHardwareAccelError`. -/
def hardwareAccelErrorPatterns : List String :=
  ["No NVENC capable devices found",
   "Driver does not support the required nvenc API version",
   "NVENC initialization failed",
   "NV_ENC_ERR_OUT_OF_MEMORY",
   "NV_ENC_ERR_INVALID_PARAM",
   "NV_ENC_ERR_INVALID_VERSION",
   "CUDA error",
   "CUDA initialization failed",
   "AMF initialization failed",
   "AMF encoder not available",
   "AMF context creation failed",
   "QSV initialization failed",
   "MFX_ERR_UNSUPPORTED",
   "MFX_ERR_DEVICE_FAILED",
   "Hardware acceleration not available",
   "No device available",
   "Failed to initialize hardware",
   "Unknown encoder",
   "Encoder not found",
   "hwaccel",
   "Invalid hwaccel type"]

/-- `FFmpegManager.isHardwareAccelError`: case-insensitive signature
match of the error message against the known hardware failure patterns;
an empty message is never a hardware error. -/
def isHardwareAccelError (errorMessage : String) : Bool :=
  if errorMessage.isEmpty then false
  else
    hardwareAccelErrorPatterns.any fun pat =>
      strContains (lowerStr errorMessage) (lowerStr pat)

/-- The guard `currentHardwareAccel && currentHardwareAccel !== 'none'`:
a hardware acceleration was requested. -/
def hwRequested : Option String → Bool
  | none => false
  | some s => !s.isEmpty && s != "none"

/-- Fallback options: identical to the original options except
`hardwareAccel` forced to `'none'`. -/
def softwareFallback (o : TranscodeOptions) : TranscodeOptions :=
  { o with hardwareAccel := some "none" }

/-- The `task.error` text written when the fallback resubmission
succeeded, naming the successor task id. -/
def fallbackSuccessMsg (newTaskId : String) : String :=
  "硬件加速失败，已自动切换到软件编码 (新任务ID: " ++ newTaskId ++ ")"

/-- The combined `task.error` text written when the fallback resubmission
itself threw. -/
def fallbackFailureMsg (errMsg fallbackError : String) : String :=
  "硬件加速失败: " ++ errMsg ++ "，软件编码回退也失败: " ++ fallbackError

/-- Result of the `command.on('error', ...)` handler: the updated task,
the notifications it sent, the successor submission (options and new task
id) when a hardware fallback was resubmitted, and whether a best-effort
deletion of the output file was performed. -/
structure ErrorHandlerResult where
  task : TranscodeTask
  notifications : List Notification
  resubmitted : Option (TranscodeOptions × String)
  deletedOutput : Bool
deriving DecidableEq, Repr

/-- The `command.on('error', ...)` handler of `startTranscode`.
`opts` is `options.transcodeOptions` at event time (the same record the
task stores), `outputExists` models `fs.existsSync(task.outputFile)`, and
`resubmit` models the recursive `startTranscode` fallback call: `.ok id`
when it returned a new task id, `.error msg` when it threw synchronously
(in which case no successor task was created, since `startTranscode`
throws before inserting the task).

Branches, in source order: a task already `paused` is a benign pause; a
`pending` task with a `SIGTERM` message is a benign cancel; a hardware
error with a requested non-software accel triggers the fallback
(cancelled + successor on success, pending + combined error on failure);
anything else is an ordinary failure reset to `pending`. -/
def onError (task : TranscodeTask) (taskId : String) (errMsg : String)
    (opts : TranscodeOptions) (outputExists : Bool)
    (resubmit : Except String String) : ErrorHandlerResult :=
  if task.status = Status.paused then
    ⟨task, [], none, false⟩
  else if strContains errMsg "SIGTERM" = true ∧ task.status = Status.pending then
    ⟨task, [], none, false⟩
  else if isHardwareAccelError errMsg = true ∧ hwRequested opts.hardwareAccel = true then
    match resubmit with
    | Except.ok newTaskId =>
        ⟨{ task with status := Status.cancelled,
                     error := some (fallbackSuccessMsg newTaskId) },
         [Notification.hardwareFallback taskId (opts.hardwareAccel.getD "") errMsg],
         some (softwareFallback opts, newTaskId),
         outputExists⟩
    | Except.error fbErr =>
        let msg := fallbackFailureMsg errMsg fbErr
        let task := { task with status := Status.pending, progress := 0,
                                error := some msg }
        ⟨task,
         [Notification.hardwareFallback taskId (opts.hardwareAccel.getD "") errMsg,
          Notification.progress taskId 0 Status.pending,
          Notification.failed taskId msg],
         none,
         outputExists⟩
  else
    let task := { task with status := Status.pending, progress := 0,
                            error := some errMsg }
    ⟨task,
     [Notification.progress taskId 0 Status.pending,
      Notification.failed taskId errMsg],
     none,
     outputExists⟩

/-- The container whitelist of the stream-copy check in `startTranscode`. -/
def streamCopyContainers : List String :=
  ["mp4", "avi", "mov", "flv", "mkv", "webm"]

/-- The `isStreamCopy` test of `startTranscode`: no video codec, no audio
codec, no resolution, no fps and no video bitrate requested, and the
output container is in the fixed whitelist. -/
def isStreamCopy (o : TranscodeOptions) : Bool :=
  !truthy o.videoCodec && !truthy o.audioCodec && !truthy o.resolution &&
  !truthyNat o.fps && !truthy o.videoBitrate &&
  streamCopyContainers.contains o.outputFormat

/-- The weaker `isStreamCopy` test inside `applyTranscodeOptions` (the
resume path): it only checks the two codec fields and the container. -/
def isStreamCopyOnResume (o : TranscodeOptions) : Bool :=
  !truthy o.videoCodec && !truthy o.audioCodec &&
  (["mkv", "mp4", "avi", "mov", "flv", "webm"] : List String).contains o.outputFormat

/-- `FFmpegManager.validateAndFixOptions`: repairs the requested profile
against the supported container/codec tables, with a disjoint table for
audio-only extraction. -/
def validateAndFixOptions (options : TranscodeOptions) : TranscodeOptions :=
  let isAudioOnly := !truthy options.videoCodec && truthy options.audioCodec
  if isAudioOnly then
    let supportedAudioFormats : List String :=
      ["mp3", "aac", "flac", "wav", "ogg", "mp4", "m4a"]
    let supportedAudioCodecs : List String :=
      ["aac", "libmp3lame", "flac", "pcm_s16le", "libvorbis"]
    let fmt := if supportedAudioFormats.contains options.outputFormat then
                 options.outputFormat else "mp3"
    let ac := match options.audioCodec with
      | some c => if truthy (some c) && !supportedAudioCodecs.contains c then
                    some "libmp3lame" else some c
      | none => none
    let ac := if truthy ac then ac else
      match fmt with
      | "mp3" => some "libmp3lame"
      | "aac" => some "aac"
      | "mp4" => some "aac"
      | "m4a" => some "aac"
      | "flac" => some "flac"
      | "wav" => some "pcm_s16le"
      | "ogg" => some "libvorbis"
      | _ => some "libmp3lame"
    { options with outputFormat := fmt, audioCodec := ac }
  else
    let supportedFormats : List String :=
      ["mp4", "avi", "mov", "flv", "mkv", "webm"]
    let supportedVideoCodecs : List String :=
      ["libx264", "libx265", "libvpx", "libvpx-vp9", "h264_nvenc", "hevc_nvenc",
       "h264_amf", "hevc_amf", "h264_qsv", "hevc_qsv"]
    let supportedAudioCodecs : List String := ["aac", "opus", "flac", "libvorbis"]
    let fmt := if supportedFormats.contains options.outputFormat then
                 options.outputFormat else "mp4"
    let vc := match options.videoCodec with
      | some c => if truthy (some c) && !supportedVideoCodecs.contains c then
                    some "libx264" else some c
      | none => none
    let ac := match options.audioCodec with
      | some c => if truthy (some c) && !supportedAudioCodecs.contains c then
                    some "aac" else some c
      | none => none
    if fmt = "flv" then
      let ac := if ac = some "opus" ∨ ac = some "flac" then some "aac" else ac
      { options with outputFormat := fmt, videoCodec := vc, audioCodec := ac }
    else if fmt = "webm" then
      let vc := if !truthy vc || !(["libvpx", "libvpx-vp9"] : List String).contains (vc.getD "") then
                  some "libvpx-vp9" else vc
      let ac := if !truthy ac || !(["opus", "libvorbis"] : List String).contains (ac.getD "") then
                  some "opus" else ac
      { options with outputFormat := fmt, videoCodec := vc, audioCodec := ac }
    else
      { options with outputFormat := fmt, videoCodec := vc, audioCodec := ac }

/-- The option-processing step of `startTranscode`: codec validation and
repair are skipped exactly when the stream-copy test holds. -/
def processOptions (o : TranscodeOptions) : TranscodeOptions :=
  if isStreamCopy o then o else validateAndFixOptions o

/-- The `HardwareValidationResult` record (`validationTime`, a wall-clock
measurement, is not modelled). -/
structure HardwareValidationResult where
  isValid : Bool
  encoder : String
  hardwareType : String
  errorMessage : Option String := none
deriving DecidableEq, Repr

/-- Outcome of the `ffmpeg -hide_banner -encoders` probe process spawned
by `validateHardwareEncoder`: the 10-second timeout fired first, the spawn
raised an error event, or the process closed with an exit code and
captured stdout/stderr. -/
inductive ProbeOutcome where
  | timeout
  | spawnError (msg : String)
  | close (code : Int) (stdout : String) (stderr : String)
deriving DecidableEq, Repr

/-- The codec-resolution switch at the top of `validateHardwareEncoder`:
for `nvenc`/`amf`/`qsv` it maps the base codec to the vendor encoder name
and probes; for any other accel value the default branch resolves
immediately as valid without probing (`none` here). -/
def resolveTestCodec (hardwareAccel videoCodec : String) : Option String :=
  match hardwareAccel with
  | "nvenc" =>
      some (if videoCodec = "libx264" then "h264_nvenc"
            else if videoCodec = "libx265" then "hevc_nvenc" else videoCodec)
  | "amf" =>
      some (if videoCodec = "libx264" then "h264_amf"
            else if videoCodec = "libx265" then "hevc_amf" else videoCodec)
  | "qsv" =>
      some (if videoCodec = "libx264" then "h264_qsv"
            else if videoCodec = "libx265" then "hevc_qsv" else videoCodec)
  | _ => none

/-- `FFmpegManager.validateHardwareEncoder`, with the probe process
outcome made an explicit parameter (ignored on the no-probe default
branch). -/
def validateHardwareEncoder (hardwareAccel videoCodec : String)
    (outcome : ProbeOutcome) : HardwareValidationResult :=
  match resolveTestCodec hardwareAccel videoCodec with
  | none =>
      { isValid := true, encoder := videoCodec, hardwareType := hardwareAccel,
        errorMessage := none }
  | some testCodec =>
      match outcome with
      | ProbeOutcome.timeout =>
          { isValid := false, encoder := testCodec, hardwareType := hardwareAccel,
            errorMessage := some "Validation timeout" }
      | ProbeOutcome.spawnError msg =>
          { isValid := false, encoder := testCodec, hardwareType := hardwareAccel,
            errorMessage := some msg }
      | ProbeOutcome.close code out errOut =>
          if code = 0 then
            if strContains out testCodec || strContains errOut testCodec then
              { isValid := true, encoder := testCodec,
                hardwareType := hardwareAccel, errorMessage := none }
            else
              { isValid := false, encoder := testCodec,
                hardwareType := hardwareAccel,
                errorMessage :=
                  some ("Encoder " ++ testCodec ++ " not available in this FFmpeg build") }
          else
            { isValid := false, encoder := testCodec,
              hardwareType := hardwareAccel,
              errorMessage :=
                some ("FFmpeg command failed (exit code: " ++ toString code ++ ")") }

/-- The task table `Map<string, TranscodeTask>`, as an association list
keyed by task id. -/
abbrev TaskTable := List (String × TranscodeTask)

/-- `Map.set`: replace the binding for `id`, or append it. -/
def setTask (tbl : TaskTable) (id : String) (task : TranscodeTask) : TaskTable :=
  match tbl with
  | [] => [(id, task)]
  | (k, v) :: rest =>
      if k = id then (id, task) :: rest else (k, v) :: setTask rest id task

/-- Result of `pauseTranscode`: the returned boolean, the table after the
call, and the notifications sent. -/
structure PauseResult where
  ok : Bool
  table : TaskTable
  notifications : List Notification
deriving DecidableEq, Repr

/-- `FFmpegManager.pauseTranscode`: returns `false` without touching
anything when the id is unknown, the task has no command, or its status is
not `running`; otherwise kills the process (`killOk` models whether
`kill` threw — a throw is caught and returns `false` before any mutation),
sets status `paused` keeping the progress, and sends a paused progress
notification. -/
def pauseTranscode (table : TaskTable) (taskId : String) (killOk : Bool) :
    PauseResult :=
  match table.lookup taskId with
  | none => ⟨false, table, []⟩
  | some task =>
      if task.hasCommand = true ∧ task.status = Status.running then
        if killOk then
          ⟨true, setTask table taskId { task with status := Status.paused },
           [Notification.progress taskId task.progress Status.paused]⟩
        else ⟨false, table, []⟩
      else ⟨false, table, []⟩

/-- Result of `resumeTranscode`: the returned boolean, the table after
the call, and the files deleted. -/
structure ResumeResult where
  ok : Bool
  table : TaskTable
  deletedFiles : List String
deriving DecidableEq, Repr

/-- `FFmpegManager.resumeTranscode`: returns `false` when the id is
unknown or the status is not `paused`; otherwise deletes the existing
partial output file (when it exists), resets the task to a fresh run
(status `running`, progress `0`, error cleared, a new command built from
the same stored options via `applyTranscodeOptions`) and starts it. -/
def resumeTranscode (table : TaskTable) (taskId : String) (outputExists : Bool) :
    ResumeResult :=
  match table.lookup taskId with
  | none => ⟨false, table, []⟩
  | some task =>
      if task.status = Status.paused then
        let deleted := if outputExists then [task.outputFile] else []
        let task2 := { task with status := Status.running, progress := 0,
                                 error := none, hasCommand := true }
        ⟨true, setTask table taskId task2, deleted⟩
      else ⟨false, table, []⟩

/-- Result of `cancelTranscode`: the returned boolean, the table after
the call, the notifications sent, and the output files whose deletion was
scheduled (the `setTimeout` grace-delay cleanup). -/
structure CancelResult where
  ok : Bool
  table : TaskTable
  notifications : List Notification
  scheduledDeletions : List String
deriving DecidableEq, Repr

/-- `FFmpegManager.cancelTranscode`: returns `false` only when the id is
unknown or the task has no command — the task's status is NOT checked.
Otherwise it kills the process (`killOk` as in `pauseTranscode`), sets
status `pending` with progress `0`, schedules deletion of the output file
after a 500 ms grace delay, and sends a pending progress notification. -/
def cancelTranscode (table : TaskTable) (taskId : String) (killOk : Bool) :
    CancelResult :=
  match table.lookup taskId with
  | none => ⟨false, table, [], []⟩
  | some task =>
      if task.hasCommand = true then
        if killOk then
          ⟨true,
           setTask table taskId { task with status := Status.pending, progress := 0 },
           [Notification.progress taskId 0 Status.pending],
           [task.outputFile]⟩
        else ⟨false, table, [], []⟩
      else ⟨false, table, [], []⟩

/-- Looking up the key just written by `setTask` yields the written task. -/
theorem lookup_setTask_self (tbl : TaskTable) (id : String) (task : TranscodeTask) :
    (setTask tbl id task).lookup id = some task := by
  induction tbl with
  | nil => simp [setTask, List.lookup]
  | cons kv rest ih =>
    obtain ⟨k, v⟩ := kv
    by_cases h : k = id
    · simp [setTask, h, List.lookup]
    · simp only [setTask, if_neg h, List.lookup]
      have hbeq : (id == k) = false := by
        simp [BEq.beq]
        exact fun he => h he.symm
      simp [hbeq, ih]

/-- `truthy` is false exactly on a missing or empty string field. -/
theorem truthy_eq_false_iff (x : Option String) :
    truthy x = false ↔ x = none ∨ x = some "" := by
  cases x with
  | none => simp [truthy]
  | some s =>
    simp only [truthy, Bool.not_eq_false']
    rw [String.isEmpty_iff]
    simp

/-- `truthyNat` is false exactly on a missing or zero numeric field. -/
theorem truthyNat_eq_false_iff (x : Option Nat) :
    truthyNat x = false ↔ x = none ∨ x = some 0 := by
  cases x with
  | none => simp [truthyNat]
  | some n => simp [truthyNat]

/-- Options used in the concrete scenarios: an mp4 re-encode requesting
NVIDIA hardware acceleration. -/
def sampleOptions : TranscodeOptions :=
  { outputFormat := "mp4", videoCodec := some "libx264", audioCodec := some "aac",
    hardwareAccel := some "nvenc" }

/-- A job whose run has completed: status `completed`, progress `100`,
with its fluent-ffmpeg command object still attached (the manager never
clears `task.command`). -/
def completedTask : TranscodeTask :=
  { id := "t1", inputFile := "in.mov", outputFile := "out/video_1.mp4",
    options := sampleOptions, status := Status.completed, progress := 100,
    hasCommand := true }

/-- A job back in `pending` after an earlier failure, with its command
object still attached. -/
def pendingCmdTask : TranscodeTask :=
  { id := "t2", inputFile := "in.avi", outputFile := "out/video_2.mp4",
    options := { outputFormat := "mp4" }, status := Status.pending, progress := 0,
    error := some "Conversion failed", hasCommand := true }

/-- A job paused at 40 percent. -/
def pausedTask : TranscodeTask :=
  { id := "t3", inputFile := "in.mkv", outputFile := "out/video_3.mp4",
    options := sampleOptions, status := Status.paused, progress := 40,
    hasCommand := true }

/-- A running job. -/
def runningTask : TranscodeTask :=
  { id := "t5", inputFile := "in.mp4", outputFile := "out/video_5.mp4",
    options := sampleOptions, status := Status.running, progress := 10,
    hasCommand := true }

/-- C1: the claim says a `Completed` job is terminal and in particular
`cancelTranscode` leaves it unchanged. Evaluating the embedded
`cancelTranscode` on a completed job (whose command object is still
attached, as the manager never clears it) shows the opposite: the call
returns `true`, rewrites the job to `pending` with progress `0`, and
schedules deletion of the completed output file. -/
theorem cancel_completed_breaks_terminality :
    completedTask.status = Status.completed ∧
    (cancelTranscode [("t1", completedTask)] "t1" true).ok = true ∧
    (cancelTranscode [("t1", completedTask)] "t1" true).table.lookup "t1" =
      some { completedTask with status := Status.pending, progress := 0 } ∧
    (cancelTranscode [("t1", completedTask)] "t1" true).scheduledDeletions =
      [completedTask.outputFile] :=
  ⟨rfl, rfl, rfl, rfl⟩

/-- C2 counterexample: the `end` handler does not inspect the job's state
at event-arrival time. Applied to a job currently `paused`, it still
transitions the job to `Completed` with progress `100`, i.e. an `end`
event arriving while `Paused` IS treated as completion. -/
theorem end_on_paused_counterexample :
    pausedTask.status = Status.paused ∧
    ((onEnd pausedTask "t3").task).status = Status.completed ∧
    ((onEnd pausedTask "t3").task).progress = 100 :=
  ⟨rfl, rfl, rfl⟩

/-- C2 (amended): the `end` handler unconditionally transitions the job
to `Completed` with progress `100` regardless of the state at
event-arrival time, leaving the other job fields unchanged and sending the
completion notifications; the state-based disambiguation of deliberate
termination lives in the `error` handler instead. -/
theorem end_handler_unconditional_completion (task : TranscodeTask) (taskId : String) :
    ((onEnd task taskId).task).status = Status.completed ∧
    ((onEnd task taskId).task).progress = 100 ∧
    ((onEnd task taskId).task).id = task.id ∧
    ((onEnd task taskId).task).options = task.options ∧
    ((onEnd task taskId).task).outputFile = task.outputFile ∧
    ((onEnd task taskId).task).error = task.error ∧
    (onEnd task taskId).notifications =
      [Notification.progress taskId 100 Status.completed,
       Notification.completed taskId] :=
  ⟨rfl, rfl, rfl, rfl, rfl, rfl, rfl⟩

/-- C3 counterexample: cancelling a job already in `Pending` is claimed
to be a no-op returning `false`; but on a pending job whose command object
is still attached (any job that has run at least once, e.g. after a
failure) `cancelTranscode` returns `true`. -/
theorem cancel_pending_counterexample :
    pendingCmdTask.status = Status.pending ∧
    (cancelTranscode [("t2", pendingCmdTask)] "t2" true).ok = true ∧
    (cancelTranscode [("t2", pendingCmdTask)] "t2" true).notifications =
      [Notification.progress "t2" 0 Status.pending] :=
  ⟨rfl, rfl, rfl⟩

/-- C3 (amended): `cancelTranscode` returns `false` exactly when the job
id is unknown or the job has no attached command object, leaving the table
unchanged; for any job with a command — whether `Running` or already
`Pending` — it returns `true` and rewrites the job to `Pending` with
progress `0` (options untouched). In particular cancelling a `Running` job
returns `true` and yields `Pending` with progress `0`. -/
theorem cancel_spec (table : TaskTable) (taskId : String) :
    (∀ task, table.lookup taskId = some task → task.hasCommand = true →
      (cancelTranscode table taskId true).ok = true ∧
      ∃ task2,
        (cancelTranscode table taskId true).table.lookup taskId = some task2 ∧
        task2.status = Status.pending ∧ task2.progress = 0 ∧
        task2.options = task.options ∧ task2.outputFile = task.outputFile) ∧
    ((table.lookup taskId = none ∨
      (∃ task, table.lookup taskId = some task ∧ task.hasCommand = false)) →
      (cancelTranscode table taskId true).ok = false ∧
      (cancelTranscode table taskId true).table = table ∧
      (cancelTranscode table taskId true).notifications = []) := by
  constructor
  · intro task hl hc
    have hres : cancelTranscode table taskId true =
        ⟨true, setTask table taskId { task with status := Status.pending, progress := 0 },
         [Notification.progress taskId 0 Status.pending], [task.outputFile]⟩ := by
      unfold cancelTranscode
      rw [hl]
      simp [hc]
    rw [hres]
    exact ⟨rfl, ⟨_, lookup_setTask_self table taskId _, rfl, rfl, rfl, rfl⟩⟩
  · rintro (hl | ⟨task, hl, hc⟩)
    · simp [cancelTranscode, hl]
    · simp [cancelTranscode, hl, hc]

/-- C3 witness: applying the amended cancel specification to a concrete
table holding a running job with a command. -/
theorem cancel_spec_witness :
    ([("t5", runningTask)] : TaskTable).lookup "t5" = some runningTask ∧
    runningTask.hasCommand = true ∧
    ((cancelTranscode [("t5", runningTask)] "t5" true).ok = true ∧
      ∃ task2,
        (cancelTranscode [("t5", runningTask)] "t5" true).table.lookup "t5" = some task2 ∧
        task2.status = Status.pending ∧ task2.progress = 0 ∧
        task2.options = runningTask.options ∧ task2.outputFile = runningTask.outputFile) :=
  ⟨rfl, rfl, (cancel_spec [("t5", runningTask)] "t5").1 runningTask rfl rfl⟩

/-- C4 counterexample: the progress handler stores and forwards the raw
percent value without clamping; an out-of-range raw sample of `150` is
stored on the job and forwarded in the notification as `150`, outside
`[0, 100]`. -/
theorem progress_unclamped_counterexample :
    ((onProgress runningTask "t5" (some 150)).task).progress = 150 ∧
    (onProgress runningTask "t5" (some 150)).notifications =
      [Notification.progress "t5" 150 Status.running] ∧
    ¬ ((150 : Int) ≤ 100) :=
  ⟨rfl, rfl, by decide⟩

/-- C4 (amended): the progress handler stores `percent || 0` — the raw
percent when present, `0` when the field is missing (no error is raised) —
and forwards exactly the stored value in the notification; no clamping to
`[0, 100]` is applied. -/
theorem progress_stored_and_forwarded (task : TranscodeTask) (taskId : String)
    (percent : Option Int) :
    ((onProgress task taskId percent).task).progress = percent.getD 0 ∧
    (onProgress task taskId percent).notifications =
      [Notification.progress taskId (percent.getD 0) Status.running] ∧
    ((onProgress task taskId none).task).progress = 0 ∧
    (∀ p, percent = some p → ((onProgress task taskId percent).task).progress = p) := by
  refine ⟨rfl, rfl, rfl, ?_⟩
  intro p hp
  subst hp
  rfl

/-- C4 witness: the amended progress specification applied to a concrete
raw sample with a present percent field. -/
theorem progress_stored_and_forwarded_witness :
    ((onProgress runningTask "t5" (some 42)).task).progress = (42 : Int) :=
  (progress_stored_and_forwarded runningTask "t5" (some 42)).2.2.2 42 rfl

/-- C5: on a non-benign error whose message matches a hardware signature,
with a non-software accel requested: (a) with a successful resubmission,
exactly one successor is submitted whose options are identical except
`hardwareAccel` forced to `'none'`, the original job transitions to
`Cancelled` with its error text naming the successor id, and a
hardware-fallback notification is sent; (b) a job running with the
successor's options can never trigger another fallback resubmission,
whatever error it later receives; (c) when the resubmission throws
synchronously, the original job instead transitions to `Pending` with a
combined error message containing both failure texts, and no successor
exists. -/
theorem hardware_fallback_spec (task : TranscodeTask) (taskId errMsg : String)
    (opts : TranscodeOptions) (outputExists : Bool)
    (h1 : task.status ≠ Status.paused)
    (h2 : ¬ (strContains errMsg "SIGTERM" = true ∧ task.status = Status.pending))
    (h3 : isHardwareAccelError errMsg = true)
    (h4 : hwRequested opts.hardwareAccel = true) :
    (∀ newTaskId,
      (onError task taskId errMsg opts outputExists (Except.ok newTaskId)).resubmitted =
        some (softwareFallback opts, newTaskId) ∧
      (softwareFallback opts).hardwareAccel = some "none" ∧
      (softwareFallback opts).outputFormat = opts.outputFormat ∧
      (softwareFallback opts).videoCodec = opts.videoCodec ∧
      (softwareFallback opts).audioCodec = opts.audioCodec ∧
      (softwareFallback opts).videoBitrate = opts.videoBitrate ∧
      (softwareFallback opts).audioBitrate = opts.audioBitrate ∧
      (softwareFallback opts).resolution = opts.resolution ∧
      (softwareFallback opts).fps = opts.fps ∧
      (softwareFallback opts).preset = opts.preset ∧
      ((onError task taskId errMsg opts outputExists (Except.ok newTaskId)).task).status =
        Status.cancelled ∧
      ((onError task taskId errMsg opts outputExists (Except.ok newTaskId)).task).error =
        some (fallbackSuccessMsg newTaskId) ∧
      (∃ p q, fallbackSuccessMsg newTaskId = p ++ newTaskId ++ q) ∧
      (onError task taskId errMsg opts outputExists (Except.ok newTaskId)).notifications =
        [Notification.hardwareFallback taskId (opts.hardwareAccel.getD "") errMsg]) ∧
    (∀ task2 taskId2 errMsg2 outputExists2 resubmit2,
      (onError task2 taskId2 errMsg2 (softwareFallback opts) outputExists2
        resubmit2).resubmitted = none) ∧
    (∀ fbErr,
      ((onError task taskId errMsg opts outputExists (Except.error fbErr)).task).status =
        Status.pending ∧
      ((onError task taskId errMsg opts outputExists (Except.error fbErr)).task).progress = 0 ∧
      ((onError task taskId errMsg opts outputExists (Except.error fbErr)).task).error =
        some (fallbackFailureMsg errMsg fbErr) ∧
      (∃ p q, fallbackFailureMsg errMsg fbErr = p ++ errMsg ++ q ++ fbErr) ∧
      (onError task taskId errMsg opts outputExists (Except.error fbErr)).resubmitted =
        none) := by
  have hred : ∀ resubmit, onError task taskId errMsg opts outputExists resubmit =
      (match resubmit with
       | Except.ok newTaskId =>
          ⟨{ task with status := Status.cancelled,
                       error := some (fallbackSuccessMsg newTaskId) },
           [Notification.hardwareFallback taskId (opts.hardwareAccel.getD "") errMsg],
           some (softwareFallback opts, newTaskId),
           outputExists⟩
       | Except.error fbErr =>
          ⟨{ task with status := Status.pending, progress := 0,
                       error := some (fallbackFailureMsg errMsg fbErr) },
           [Notification.hardwareFallback taskId (opts.hardwareAccel.getD "") errMsg,
            Notification.progress taskId 0 Status.pending,
            Notification.failed taskId (fallbackFailureMsg errMsg fbErr)],
           none,
           outputExists⟩) := by
    intro resubmit
    unfold onError
    rw [if_neg h1, if_neg h2, if_pos ⟨h3, h4⟩]
  refine ⟨?_, ?_, ?_⟩
  · intro newTaskId
    rw [hred (Except.ok newTaskId)]
    exact ⟨rfl, rfl, rfl, rfl, rfl, rfl, rfl, rfl, rfl, rfl, rfl, rfl,
           ⟨"硬件加速失败，已自动切换到软件编码 (新任务ID: ", ")", rfl⟩, rfl⟩
  · intro task2 taskId2 errMsg2 outputExists2 resubmit2
    have hfb : hwRequested (softwareFallback opts).hardwareAccel = false := by
      simp [softwareFallback, hwRequested]
    unfold onError
    split
    · rfl
    · split
      · rfl
      · split
        · rename_i hcond
          rw [hfb] at hcond
          exact absurd hcond.2 (by simp)
        · rfl
  · intro fbErr
    rw [hred (Except.error fbErr)]
    exact ⟨rfl, rfl, rfl,
           ⟨"硬件加速失败: ", "，软件编码回退也失败: ", rfl⟩, rfl⟩

/-- C5 witness: the fallback specification applied to a running job with
options requesting `nvenc` and a CUDA error message, for a resubmission
that returned task id `"t6"` and for one that threw. -/
theorem hardware_fallback_spec_witness :
    runningTask.status ≠ Status.paused ∧
    isHardwareAccelError "CUDA error" = true ∧
    hwRequested sampleOptions.hardwareAccel = true ∧
    (onError runningTask "t5" "CUDA error" sampleOptions true
      (Except.ok "t6")).resubmitted = some (softwareFallback sampleOptions, "t6") ∧
    ((onError runningTask "t5" "CUDA error" sampleOptions true
      (Except.error "spawn failure")).task).status = Status.pending :=
  ⟨by decide, by decide, by decide,
   ((hardware_fallback_spec runningTask "t5" "CUDA error" sampleOptions true
      (by decide) (by decide) (by decide) (by decide)).1 "t6").1,
   ((hardware_fallback_spec runningTask "t5" "CUDA error" sampleOptions true
      (by decide) (by decide) (by decide) (by decide)).2.2 "spawn failure").1⟩

/-- C6: a process error event arriving while the job is `Paused`, or
while it is `Pending` with a message containing the deliberate `SIGTERM`
termination signal, leaves the job entirely unchanged, sends no
notification (in particular no failure notification), performs no file
deletion, and triggers no resubmission. -/
theorem benign_error_suppressed (task : TranscodeTask) (taskId errMsg : String)
    (opts : TranscodeOptions) (outputExists : Bool) (resubmit : Except String String)
    (h : task.status = Status.paused ∨
         (task.status = Status.pending ∧ strContains errMsg "SIGTERM" = true)) :
    onError task taskId errMsg opts outputExists resubmit =
      ⟨task, [], none, false⟩ := by
  unfold onError
  rcases h with h | ⟨h1, h2⟩
  · rw [if_pos h]
  · have hne : task.status ≠ Status.paused := by rw [h1]; exact fun hcontra => by cases hcontra
    rw [if_neg hne, if_pos ⟨h2, h1⟩]

/-- C6 witness: the suppression theorem applied to a concrete paused job
receiving the error fluent-ffmpeg raises after an intentional kill. -/
theorem benign_error_suppressed_witness :
    pausedTask.status = Status.paused ∧
    onError pausedTask "t3" "ffmpeg was killed with signal SIGTERM" sampleOptions true
      (Except.ok "x") = ⟨pausedTask, [], none, false⟩ :=
  ⟨rfl, benign_error_suppressed pausedTask "t3" "ffmpeg was killed with signal SIGTERM"
    sampleOptions true (Except.ok "x") (Or.inl rfl)⟩

/-- C7 counterexample: for an accel family outside `nvenc`/`amf`/`qsv`
(here `d3d11va`, one of the selectable families), the validator resolves
`isValid = true` with no error message without running any probe — even
when the probe outcome would have been a spawn failure or a timeout —
refuting "never silently assume validity" for every requested family. -/
theorem hardware_validation_assumed_counterexample :
    (validateHardwareEncoder "d3d11va" "libx264"
      (ProbeOutcome.spawnError "spawn ENOENT")).isValid = true ∧
    (validateHardwareEncoder "d3d11va" "libx264"
      (ProbeOutcome.spawnError "spawn ENOENT")).errorMessage = none ∧
    (validateHardwareEncoder "d3d11va" "libx264" ProbeOutcome.timeout).isValid = true :=
  ⟨rfl, rfl, rfl⟩

/-- C7 (amended): for the probed families (`nvenc`/`amf`/`qsv`, i.e.
whenever a test codec is resolved), every spawn failure, non-zero exit,
10-second timeout, or missing encoder resolves `isValid = false` with a
populated error message — a timeout-specific message in the timeout
case — and the validation resolves on every outcome; for any other accel
family the validator resolves immediately with `isValid = true` and no
probe. -/
theorem hardware_validation_fail_closed (hardwareAccel videoCodec : String)
    (outcome : ProbeOutcome) :
    (∀ testCodec, resolveTestCodec hardwareAccel videoCodec = some testCodec →
      ((outcome = ProbeOutcome.timeout →
         (validateHardwareEncoder hardwareAccel videoCodec outcome).isValid = false ∧
         (validateHardwareEncoder hardwareAccel videoCodec outcome).errorMessage =
           some "Validation timeout") ∧
       (∀ m, outcome = ProbeOutcome.spawnError m →
         (validateHardwareEncoder hardwareAccel videoCodec outcome).isValid = false ∧
         (validateHardwareEncoder hardwareAccel videoCodec outcome).errorMessage = some m) ∧
       (∀ c o e, outcome = ProbeOutcome.close c o e → c ≠ 0 →
         (validateHardwareEncoder hardwareAccel videoCodec outcome).isValid = false ∧
         ((validateHardwareEncoder hardwareAccel videoCodec outcome).errorMessage).isSome =
           true) ∧
       (∀ o e, outcome = ProbeOutcome.close 0 o e →
         strContains o testCodec = false → strContains e testCodec = false →
         (validateHardwareEncoder hardwareAccel videoCodec outcome).isValid = false ∧
         ((validateHardwareEncoder hardwareAccel videoCodec outcome).errorMessage).isSome =
           true))) ∧
    (resolveTestCodec hardwareAccel videoCodec = none →
      (validateHardwareEncoder hardwareAccel videoCodec outcome).isValid = true ∧
      (validateHardwareEncoder hardwareAccel videoCodec outcome).errorMessage = none) := by
  constructor
  · intro testCodec htc
    refine ⟨?_, ?_, ?_, ?_⟩
    · intro hout
      subst hout
      simp [validateHardwareEncoder, htc]
    · intro m hout
      subst hout
      simp [validateHardwareEncoder, htc]
    · intro c o e hout hc
      subst hout
      simp [validateHardwareEncoder, htc, hc]
    · intro o e hout ho he
      subst hout
      simp [validateHardwareEncoder, htc, ho, he]
  · intro hnone
    simp [validateHardwareEncoder, hnone]

/-- C7 witness: the fail-closed specification applied to `nvenc` with
base codec `libx264` and a probe timeout. -/
theorem hardware_validation_fail_closed_witness :
    resolveTestCodec "nvenc" "libx264" = some "h264_nvenc" ∧
    (validateHardwareEncoder "nvenc" "libx264" ProbeOutcome.timeout).isValid = false ∧
    (validateHardwareEncoder "nvenc" "libx264" ProbeOutcome.timeout).errorMessage =
      some "Validation timeout" :=
  ⟨rfl,
   (((hardware_validation_fail_closed "nvenc" "libx264" ProbeOutcome.timeout).1
      "h264_nvenc" rfl).1 rfl).1,
   (((hardware_validation_fail_closed "nvenc" "libx264" ProbeOutcome.timeout).1
      "h264_nvenc" rfl).1 rfl).2⟩

/-- C8: the stream-copy test of `startTranscode` holds exactly when no
video codec, no audio codec, no resolution, no fps and no video bitrate is
requested (missing or falsy-empty fields) and the output container is in
the fixed whitelist `mp4/avi/mov/flv/mkv/webm`; and in that mode the
codec validation and repair step (`validateAndFixOptions`, which performs
encoder selection fixes) is skipped, the options passing through
unchanged. -/
theorem stream_copy_spec (o : TranscodeOptions) :
    (isStreamCopy o = true ↔
      ((o.videoCodec = none ∨ o.videoCodec = some "") ∧
       (o.audioCodec = none ∨ o.audioCodec = some "") ∧
       (o.resolution = none ∨ o.resolution = some "") ∧
       (o.fps = none ∨ o.fps = some 0) ∧
       (o.videoBitrate = none ∨ o.videoBitrate = some "") ∧
       o.outputFormat ∈ streamCopyContainers)) ∧
    (isStreamCopy o = true → processOptions o = o) := by
  constructor
  · unfold isStreamCopy
    simp only [Bool.and_eq_true, Bool.not_eq_true', truthy_eq_false_iff,
      truthyNat_eq_false_iff, List.contains_eq_any_beq, List.any_eq_true, beq_iff_eq]
    constructor
    · rintro ⟨⟨⟨⟨⟨hv, ha⟩, hr⟩, hf⟩, hb⟩, x, hx, hxx⟩
      exact ⟨hv, ha, hr, hf, hb, by rw [hxx]; exact hx⟩
    · rintro ⟨hv, ha, hr, hf, hb, hc⟩
      exact ⟨⟨⟨⟨⟨hv, ha⟩, hr⟩, hf⟩, hb⟩, o.outputFormat, hc, rfl⟩
  · intro h
    unfold processOptions
    rw [h]
    rfl

/-- C8 witness: the stream-copy specification applied to an mp4 request
with no overrides; the test holds and validation is skipped. -/
theorem stream_copy_spec_witness :
    isStreamCopy { outputFormat := "mp4" } = true ∧
    processOptions { outputFormat := "mp4" } = { outputFormat := "mp4" } :=
  ⟨rfl, (stream_copy_spec { outputFormat := "mp4" }).2 rfl⟩

/-- C9: `resumeTranscode` returns `true` exactly when the id names a job
whose state is `Paused` (returning `false`, with nothing deleted, for
every other state or an unknown id); and on success the job is restarted
as a fresh run — state `Running`, progress reset to `0`, error cleared —
with the same stored options and input/output paths, after deleting the
existing partial output file when one exists. -/
theorem resume_spec (table : TaskTable) (taskId : String) (outputExists : Bool) :
    ((resumeTranscode table taskId outputExists).ok = true ↔
      ∃ task, table.lookup taskId = some task ∧ task.status = Status.paused) ∧
    (∀ task, table.lookup taskId = some task → task.status ≠ Status.paused →
      (resumeTranscode table taskId outputExists).table = table ∧
      (resumeTranscode table taskId outputExists).deletedFiles = []) ∧
    (∀ task, table.lookup taskId = some task → task.status = Status.paused →
      ∃ task2,
        (resumeTranscode table taskId outputExists).table.lookup taskId = some task2 ∧
        task2.status = Status.running ∧ task2.progress = 0 ∧ task2.error = none ∧
        task2.options = task.options ∧ task2.inputFile = task.inputFile ∧
        task2.outputFile = task.outputFile ∧
        (resumeTranscode table taskId outputExists).deletedFiles =
          (if outputExists then [task.outputFile] else [])) := by
  refine ⟨⟨?_, ?_⟩, ?_, ?_⟩
  · intro h
    cases hl : table.lookup taskId with
    | none => simp [resumeTranscode, hl] at h
    | some task =>
      by_cases hs : task.status = Status.paused
      · exact ⟨task, rfl, hs⟩
      · simp [resumeTranscode, hl, hs] at h
  · rintro ⟨task, hl, hs⟩
    simp [resumeTranscode, hl, hs]
  · intro task hl hs
    constructor <;> simp [resumeTranscode, hl, hs]
  · intro task hl hs
    have hres : resumeTranscode table taskId outputExists =
        ⟨true,
         setTask table taskId
           { task with
             status := Status.running, progress := 0, error := none,
             hasCommand := true },
         if outputExists then [task.outputFile] else []⟩ := by
      simp [resumeTranscode, hl, hs]
    rw [hres]
    exact ⟨_, lookup_setTask_self table taskId _, rfl, rfl, rfl, rfl, rfl, rfl, rfl⟩

/-- C9 witness: the resume specification applied to a table holding a
paused job, with the partial output file present. -/
theorem resume_spec_witness :
    ([("t3", pausedTask)] : TaskTable).lookup "t3" = some pausedTask ∧
    pausedTask.status = Status.paused ∧
    (resumeTranscode [("t3", pausedTask)] "t3" true).ok = true ∧
    (∃ task2,
      (resumeTranscode [("t3", pausedTask)] "t3" true).table.lookup "t3" = some task2 ∧
      task2.status = Status.running ∧ task2.progress = 0 ∧ task2.error = none ∧
      task2.options = pausedTask.options ∧ task2.inputFile = pausedTask.inputFile ∧
      task2.outputFile = pausedTask.outputFile ∧
      (resumeTranscode [("t3", pausedTask)] "t3" true).deletedFiles =
        (if true then [pausedTask.outputFile] else [])) :=
  ⟨rfl, rfl,
   (resume_spec [("t3", pausedTask)] "t3" true).1.mpr ⟨pausedTask, rfl, rfl⟩,
   (resume_spec [("t3", pausedTask)] "t3" true).2.2 pausedTask rfl rfl⟩

/-- C10: whenever `pauseTranscode` returns `false` — unknown id, no
attached command, state not `Running`, or even a throwing kill — the task
table is returned entirely unchanged and no notification is sent. -/
theorem pause_false_frame (table : TaskTable) (taskId : String) (killOk : Bool)
    (h : (pauseTranscode table taskId killOk).ok = false) :
    (pauseTranscode table taskId killOk).table = table ∧
    (pauseTranscode table taskId killOk).notifications = [] := by
  cases hl : table.lookup taskId with
  | none => constructor <;> simp [pauseTranscode, hl]
  | some task =>
    by_cases hc : task.hasCommand = true ∧ task.status = Status.running
    · cases killOk with
      | true => simp [pauseTranscode, hl, hc] at h
      | false => constructor <;> simp [pauseTranscode, hl, hc]
    · constructor <;> simp [pauseTranscode, hl, hc]

/-- C10 witness: the frame theorem applied to a table holding a completed
job (state not `Running`, so pause refuses). -/
theorem pause_false_frame_witness :
    (pauseTranscode [("t1", completedTask)] "t1" true).ok = false ∧
    ((pauseTranscode [("t1", completedTask)] "t1" true).table =
      [("t1", completedTask)] ∧
     (pauseTranscode [("t1", completedTask)] "t1" true).notifications = []) :=
  ⟨rfl, pause_false_frame [("t1", completedTask)] "t1" true rfl⟩

end VideoTranscoder
